import Mathlib

/-!
# Verification of the intraday-trading signal engine

Shallow embedding of the signal-detection core of the repository
(`src/indicators/*.py`, `src/utils/tick_data_processor.py`) and proofs of
the behavioural properties claimed for it.

Modelling conventions:
* Python floats are modelled by `ℚ` wherever the code stays in field
  arithmetic; `ℝ` is used only where the source takes a square root
  (`np.std`).  Timestamps (`datetime`) are modelled as `ℚ` seconds on a
  civil time line; `strftime('%Y%m%d%H%M')` then identifies the calendar
  minute `⌊t / 60⌋`.
* numpy division of a nonzero float by `0.0` yields `±inf` and `0.0/0.0`
  yields `nan`; the one place where this is semantically load-bearing for
  the properties below (the RSI `gain/loss` ratio followed by `fillna(50)`)
  is modelled by the explicit case split `rsiPoint`.  Elsewhere Lean's
  `x / 0 = 0` convention stands in; every property proved below stays in
  branches whose denominators the source itself guards or that no claim
  exercises.
-/

namespace Intraday

/-! ## Generic list helpers shared by the indicator code -/

/-- Python `l[-n:]`: the last `n` elements (the whole list when it is
shorter than `n`). -/
def takeLast {α : Type} (l : List α) (n : ℕ) : List α :=
  l.drop (l.length - n)

/-- Python `max(l)` on a nonempty list (`0` is a junk value for `[]`,
which the source never reaches thanks to its emptiness guards). -/
def maxP {α : Type} [LinearOrderedField α] : List α → α
  | [] => 0
  | [x] => x
  | x :: y :: t => max x (maxP (y :: t))

/-- Python `min(l)` on a nonempty list (junk value `0` for `[]`). -/
def minP {α : Type} [LinearOrderedField α] : List α → α
  | [] => 0
  | [x] => x
  | x :: y :: t => min x (minP (y :: t))

/-- `np.mean(l)`: sum divided by length. -/
def meanL {α : Type} [LinearOrderedField α] (l : List α) : α :=
  l.sum / l.length

/-- The rolling-window mean of width `period` ending at index
`start + period - 1`: mean of `l[start .. start+period-1]`. -/
def windowMean {α : Type} [LinearOrderedField α] (l : List α) (start period : ℕ) : α :=
  ((l.drop start).take period).sum / period

/-- Python `l[-k]` (k-th element from the end), with default `d`. -/
def lastN {α : Type} (l : List α) (k : ℕ) (d : α) : α :=
  l.getD (l.length - k) d

/-! ## `SignalRateLimiter` — `SecondLevelDetector._filter_signal`

State of the rate limiter owned by one `SecondLevelDetector` instance:
`last_signal_time` maps the key `"{peak|valley}_signal"` to the time of
the last fired signal of that type, and `false_signal_count` maps a
calendar-minute key to the number of signals fired in that minute.
-/

/-- The two signal types (`'peak'` / `'valley'` in the source). -/
inductive SigType
  | peak
  | valley
deriving DecidableEq, Repr

/-- The mutable per-instance state of `_filter_signal`
(`self.last_signal_time`, `self.false_signal_count`). -/
structure FilterState where
  lastPeakTime : Option ℚ
  lastValleyTime : Option ℚ
  falseSignalCount : List (ℤ × ℕ)
deriving DecidableEq, Repr

/-- The state created by `SecondLevelDetector.__init__`: both dicts empty. -/
def initFilterState : FilterState := ⟨none, none, []⟩

/-- `self.last_signal_time.get(f"{ty}_signal")`. -/
def lastTimeOf (s : FilterState) : SigType → Option ℚ
  | .peak => s.lastPeakTime
  | .valley => s.lastValleyTime

/-- `self.last_signal_time[f"{ty}_signal"] = t`. -/
def setLastTime (s : FilterState) (ty : SigType) (t : ℚ) : FilterState :=
  match ty with
  | .peak => { s with lastPeakTime := some t }
  | .valley => { s with lastValleyTime := some t }

/-- `current_time.strftime('%Y%m%d%H%M')`: the calendar minute of a civil
timestamp, as the floor of the epoch-second count divided by 60. -/
def minuteKey (t : ℚ) : ℤ := ⌊t / 60⌋

/-- Dictionary lookup in the minute-count association list. -/
def lookupCount : List (ℤ × ℕ) → ℤ → Option ℕ
  | [], _ => none
  | (k, v) :: rest, k0 => if k = k0 then some v else lookupCount rest k0

/-- Dictionary assignment in the minute-count association list. -/
def setCount : List (ℤ × ℕ) → ℤ → ℕ → List (ℤ × ℕ)
  | [], k0, v0 => [(k0, v0)]
  | (k, v) :: rest, k0, v0 =>
      if k = k0 then (k0, v0) :: rest else (k, v) :: setCount rest k0 v0

/-- The count stored for minute `k` (a missing key reads as 0: the source
initialises absent keys to 0 before comparing). -/
def countD (s : FilterState) (k : ℤ) : ℕ :=
  (lookupCount s.falseSignalCount k).getD 0

/-- `if minute_key not in self.false_signal_count:
self.false_signal_count[minute_key] = 0`. -/
def initMinute (l : List (ℤ × ℕ)) (m : ℤ) : List (ℤ × ℕ) :=
  if (lookupCount l m).isNone then setCount l m 0 else l

/-- The body of `_filter_signal` after the cooldown check: initialise the
minute counter if absent, enforce the 3-per-minute cap, then record state
and pass the candidate through when it fires. -/
def filterRest {α : Type} [Zero α] (s : FilterState) (ty : SigType)
    (signal : Bool) (strength : α) (t : ℚ) : (Bool × α) × FilterState :=
  let m := minuteKey t
  let counts1 := initMinute s.falseSignalCount m
  let s1 : FilterState := { s with falseSignalCount := counts1 }
  if 3 ≤ countD s1 m then ((false, 0), s1)
  else if signal then
    ((signal, strength),
      setLastTime { s1 with falseSignalCount := setCount counts1 m (countD s1 m + 1) } ty t)
  else ((signal, strength), s1)

/-- `SecondLevelDetector._filter_signal(signal_type, signal, strength,
current_time)`: a candidate of a type whose last fire was less than 15
seconds ago is forced to `(False, 0)`; otherwise the per-minute cap
applies. -/
def filterSignal {α : Type} [Zero α] (s : FilterState) (ty : SigType)
    (signal : Bool) (strength : α) (t : ℚ) : (Bool × α) × FilterState :=
  match lastTimeOf s ty with
  | some t0 =>
      if t - t0 < 15 then ((false, 0), s)
      else filterRest s ty signal strength t
  | none => filterRest s ty signal strength t

/-- One candidate submitted to the rate limiter. -/
structure Call where
  ty : SigType
  signal : Bool
  strength : ℚ
  time : ℚ
deriving DecidableEq, Repr

/-- The result returned for a candidate. -/
def callResult (s : FilterState) (c : Call) : Bool × ℚ :=
  (filterSignal s c.ty c.signal c.strength c.time).1

/-- The state after a candidate. -/
def applyCall (s : FilterState) (c : Call) : FilterState :=
  (filterSignal s c.ty c.signal c.strength c.time).2

/-- The state after a sequence of candidates. -/
def runFilter (s : FilterState) (cs : List Call) : FilterState :=
  cs.foldl applyCall s

/-- How many candidates of a trace fire (return `signal = True`) during
calendar minute `m`, starting from state `s`. -/
def firesInMinute (s : FilterState) : List Call → ℤ → ℕ
  | [], _ => 0
  | c :: cs, m =>
      (if (callResult s c).1 = true ∧ minuteKey c.time = m then 1 else 0) +
        firesInMinute (applyCall s c) cs m

/-- The candidate `c` is not blocked by the 15-second cooldown in state
`s`: either no signal of its type has fired yet, or the last fire is at
least 15 seconds in the past. -/
def cooldownOk (s : FilterState) (c : Call) : Prop :=
  ∀ t0, lastTimeOf s c.ty = some t0 → 15 ≤ c.time - t0

/-! ## IndicatorLibrary — RSI and moving averages

`TechnicalIndicators.rsi` and `PeakValleyDetector._calculate_rsi` are the
same computation: `delta = series.diff()`, positive and negative parts
with `where(..., 0)` (which also turns the leading `NaN` delta into `0`),
rolling means of width `period`, `rs = gain / loss`,
`rsi = 100 - 100/(1 + rs)`, `fillna(50)`.
-/

/-- The `gain` series `delta.where(delta > 0, 0)`: the leading `NaN`
difference becomes `0`, every later entry is `max(Δ, 0)`. -/
def gainsOf {α : Type} [LinearOrderedField α] (ps : List α) : List α :=
  0 :: (List.zip ps.tail ps).map (fun p => max (p.1 - p.2) 0)

/-- The `loss` series `(-delta).where(delta < 0, 0)`. -/
def lossesOf {α : Type} [LinearOrderedField α] (ps : List α) : List α :=
  0 :: (List.zip ps.tail ps).map (fun p => max (p.2 - p.1) 0)

/-- `100 - 100/(1 + gain/loss)` under IEEE semantics followed by
`fillna(50)`: a zero loss mean with a nonzero gain mean gives
`rs = ±inf`, hence `100`; `0/0` gives `NaN`, which `fillna` turns
into `50`. -/
def rsiPoint {α : Type} [LinearOrderedField α] (g l : α) : α :=
  if l = 0 then (if g = 0 then 50 else 100) else 100 - 100 / (1 + g / l)

/-- `TechnicalIndicators.rsi` / `PeakValleyDetector._calculate_rsi`:
positions whose rolling window is not yet full are `NaN` and hence `50`
after `fillna`. -/
def calcRSI {α : Type} [LinearOrderedField α] (ps : List α) (period : ℕ) : List α :=
  if ps.length < period + 1 then []
  else
    (List.range ps.length).map (fun i =>
      if i + 1 < period then 50
      else rsiPoint (windowMean (gainsOf ps) (i + 1 - period) period)
                    (windowMean (lossesOf ps) (i + 1 - period) period))

/-- `PeakValleyDetector._calculate_ma`: a rolling mean; the first
`period - 1` positions are `NaN` (modelled as `none`) and the source
only ever reads the last entry, which is always defined when the list
is nonempty. -/
def calcMA {α : Type} [LinearOrderedField α] (ps : List α) (period : ℕ) : List (Option α) :=
  if ps.length < period then []
  else
    (List.range ps.length).map (fun i =>
      if i + 1 < period then none
      else some (windowMean ps (i + 1 - period) period))

/-- Python `ma[-1] if len(ma) > 0 else d`; for a nonempty rolling-mean
array the last cell is never `NaN`, so the inner `none` case is junk. -/
def lastSome {α : Type} (l : List (Option α)) (d : α) : α :=
  match l.getLast? with
  | some (some v) => v
  | _ => d

/-! ## Coarse `PeakValleyDetector` -/

/-- `PeakValleyDetector.__init__` parameters (the unused mutable
`price_history` dict is omitted). -/
structure PeakValleyDetector where
  windowSize : ℤ
  minPeakHeight : ℚ
  minValleyDepth : ℚ
deriving DecidableEq, Repr

/-- `PeakValleyDetector.__init__`: stores its three arguments verbatim —
the source performs no validation of any kind, so the embedding is a
total function with no error outcome. -/
def PeakValleyDetector.init (windowSize : ℤ) (minPeakHeight minValleyDepth : ℚ) :
    PeakValleyDetector :=
  { windowSize := windowSize, minPeakHeight := minPeakHeight,
    minValleyDepth := minValleyDepth }

/-- `_check_price_stagnation(recent_prices, signal_type)`. -/
def checkPriceStagnation (recentPrices : List ℚ) (ty : SigType) : Bool :=
  if recentPrices.length < 3 then false
  else
    match ty with
    | .peak => decide (recentPrices.getLastD 0 < maxP recentPrices.dropLast)
    | .valley => decide (minP recentPrices.dropLast < recentPrices.getLastD 0)

/-- `PeakValleyDetector._detect_peak`: up to 5 boolean conditions,
fires on ≥ 3, strength = satisfied/applicable. -/
def detectPeak (d : PeakValleyDetector) (prices : List ℚ) (currentPrice : ℚ)
    (ma5 ma10 : List (Option ℚ)) (rsi : List ℚ) : Bool × ℚ :=
  if prices.length < 10 ∨ rsi.length = 0 then (false, 0)
  else
    let recentHigh := maxP (takeLast prices 15)
    let isNewHigh := decide (recentHigh * (995 / 1000) ≤ currentPrice)
    let isOverbought := decide (70 < rsi.getLastD 0)
    let conds : List Bool :=
      [isNewHigh, isOverbought]
        ++ (if 0 < ma5.length then
              [decide (d.minPeakHeight < (currentPrice - lastSome ma5 0) / lastSome ma5 0)]
            else [])
        ++ (if 0 < ma5.length ∧ 0 < ma10.length then
              [decide (lastSome ma10 0 < lastSome ma5 0 ∧ lastSome ma5 0 < currentPrice)]
            else [])
        ++ (if 5 ≤ prices.length then [checkPriceStagnation (takeLast prices 5) .peak]
            else [])
    let score := conds.count true
    (decide (3 ≤ score),
      if conds.length = 0 then 0 else (score : ℚ) / (conds.length : ℚ))

/-- `PeakValleyDetector._detect_valley`. -/
def detectValley (d : PeakValleyDetector) (prices : List ℚ) (currentPrice : ℚ)
    (ma5 ma10 : List (Option ℚ)) (rsi : List ℚ) : Bool × ℚ :=
  if prices.length < 10 ∨ rsi.length = 0 then (false, 0)
  else
    let recentLow := minP (takeLast prices 15)
    let isNewLow := decide (currentPrice ≤ recentLow * (1005 / 1000))
    let isOversold := decide (rsi.getLastD 0 < 30)
    let conds : List Bool :=
      [isNewLow, isOversold]
        ++ (if 0 < ma5.length then
              [decide (d.minValleyDepth < (lastSome ma5 0 - currentPrice) / lastSome ma5 0)]
            else [])
        ++ (if 0 < ma5.length ∧ 0 < ma10.length then
              [decide (currentPrice < lastSome ma5 0)]
            else [])
        ++ (if 5 ≤ prices.length then [checkPriceStagnation (takeLast prices 5) .valley]
            else [])
    let score := conds.count true
    (decide (3 ≤ score),
      if conds.length = 0 then 0 else (score : ℚ) / (conds.length : ℚ))

/-- `PeakValleyDetector._get_price_position`. -/
def getPricePosition (currentPrice : ℚ) (ma5 ma10 ma20 : List (Option ℚ)) : String :=
  if ma5.length = 0 then "unknown"
  else if lastSome ma5 0 < currentPrice then
    if 0 < ma10.length ∧ lastSome ma10 0 < currentPrice then
      if 0 < ma20.length ∧ lastSome ma20 0 < currentPrice then "strong_bullish"
      else "bullish"
    else "weak_bullish"
  else
    if 0 < ma10.length ∧ currentPrice < lastSome ma10 0 then
      if 0 < ma20.length ∧ currentPrice < lastSome ma20 0 then "strong_bearish"
      else "bearish"
    else "weak_bearish"

/-- The dictionary returned by `detect_signals` / `_empty_signal` (same
key set in both). -/
structure SignalResult where
  peakSignal : Bool
  peakStrength : ℚ
  valleySignal : Bool
  valleyStrength : ℚ
  ma5 : ℚ
  ma10 : ℚ
  ma20 : ℚ
  rsi : ℚ
  pricePosition : String
deriving DecidableEq, Repr

/-- `PeakValleyDetector._empty_signal`. -/
def emptySignal : SignalResult :=
  ⟨false, 0, false, 0, 0, 0, 0, 50, "unknown"⟩

/-- `PeakValleyDetector.detect_signals` (the unused `current_time`
argument is kept for fidelity). -/
def detectSignals (d : PeakValleyDetector) (priceSeries : List ℚ)
    (currentPrice : ℚ) (currentTime : ℚ) : SignalResult :=
  if (priceSeries.length : ℤ) < d.windowSize then emptySignal
  else
    let ma5 := calcMA priceSeries 5
    let ma10 := calcMA priceSeries 10
    let ma20 := calcMA priceSeries 20
    let rsi := calcRSI priceSeries 14
    let pk := detectPeak d priceSeries currentPrice ma5 ma10 rsi
    let vl := detectValley d priceSeries currentPrice ma5 ma10 rsi
    { peakSignal := pk.1, peakStrength := pk.2,
      valleySignal := vl.1, valleyStrength := vl.2,
      ma5 := lastSome ma5 currentPrice, ma10 := lastSome ma10 currentPrice,
      ma20 := lastSome ma20 currentPrice,
      rsi := rsi.getLastD 50,
      pricePosition := getPricePosition currentPrice ma5 ma10 ma20 }

/-! ## `MultiTimeframeFusion` -/

/-- The 4-field signal pair each timeframe contributes to the fusion. -/
structure SigPair where
  peakSignal : Bool
  peakStrength : ℚ
  valleySignal : Bool
  valleyStrength : ℚ
deriving DecidableEq, Repr

/-- `MultiTimeframeFusion.__init__` parameters. -/
structure MultiTimeframeFusion where
  minuteWeight : ℚ
  secondWeight : ℚ
  threshold : ℚ
deriving DecidableEq, Repr

/-- `MultiTimeframeFusion.__init__`: stores the weights and threshold
verbatim, with no validation and no error outcome (the history list it
also initialises is threaded explicitly through `fuseSignals`). -/
def MultiTimeframeFusion.init (minuteWeight secondWeight threshold : ℚ) :
    MultiTimeframeFusion :=
  { minuteWeight := minuteWeight, secondWeight := secondWeight,
    threshold := threshold }

/-- `MultiTimeframeFusion._confirm_signal`. -/
def MultiTimeframeFusion.confirmSignal (f : MultiTimeframeFusion)
    (minuteSignal secondSignal : Bool) (fusedStrength : ℚ) : Bool :=
  if !minuteSignal then false
  else if fusedStrength < f.threshold then false
  else true

/-- `MultiTimeframeFusion._calculate_confidence`. -/
def calculateConfidence (m s : SigPair) : String :=
  let peakConsistency := m.peakSignal == s.peakSignal
  let valleyConsistency := m.valleySignal == s.valleySignal
  if peakConsistency && valleyConsistency then "high"
  else if peakConsistency || valleyConsistency then "medium"
  else "low"

/-- One entry of `self.signal_history`. -/
structure FusionRecord where
  time : ℚ
  peakSignal : Bool
  valleySignal : Bool
deriving DecidableEq, Repr

/-- `MultiTimeframeFusion._update_signal_history`: append, then prune to
the last 5 minutes (`s['time'] > current_time - 300 s`). -/
def updateSignalHistory (hist : List FusionRecord) (p v : Bool) (t : ℚ) :
    List FusionRecord :=
  (hist ++ [(⟨t, p, v⟩ : FusionRecord)]).filter (fun r => decide (t - 300 < r.time))

/-- The dictionary returned by `fuse_signals`. -/
structure FusionResult where
  peakSignal : Bool
  peakStrength : ℚ
  valleySignal : Bool
  valleyStrength : ℚ
  minuteSignals : SigPair
  secondSignals : SigPair
  signalConfidence : String
deriving DecidableEq, Repr

/-- `MultiTimeframeFusion.fuse_signals`. -/
def fuseSignals (f : MultiTimeframeFusion) (hist : List FusionRecord)
    (minuteSignals secondSignals : SigPair) (currentTime : ℚ) :
    FusionResult × List FusionRecord :=
  let peakFusedStrength :=
    minuteSignals.peakStrength * f.minuteWeight +
      secondSignals.peakStrength * f.secondWeight
  let valleyFusedStrength :=
    minuteSignals.valleyStrength * f.minuteWeight +
      secondSignals.valleyStrength * f.secondWeight
  let peakConfirmed :=
    f.confirmSignal minuteSignals.peakSignal secondSignals.peakSignal peakFusedStrength
  let valleyConfirmed :=
    f.confirmSignal minuteSignals.valleySignal secondSignals.valleySignal valleyFusedStrength
  (⟨peakConfirmed, peakFusedStrength, valleyConfirmed, valleyFusedStrength,
      minuteSignals, secondSignals, calculateConfidence minuteSignals secondSignals⟩,
    updateSignalHistory hist peakConfirmed valleyConfirmed currentTime)

/-! ## `TickDataProcessor` — tick aggregation -/

/-- One raw trade tick (`tick.datetime`, `tick.last`, `tick.volume`);
the timestamp is ℚ seconds on the civil time line. -/
structure Tick where
  datetime : ℚ
  last : ℚ
  volume : ℚ
deriving DecidableEq, Repr

/-- `timestamp.replace(second=(timestamp.second // agg) * agg,
microsecond=0)`: the seconds-within-the-minute field floored to a
multiple of `aggSeconds`, an integral timestamp. -/
def aggTimestamp (aggSeconds : ℕ) (t : ℚ) : ℤ :=
  let minuteStart := 60 * ⌊t / 60⌋
  minuteStart + ((⌊t⌋ - minuteStart) / (aggSeconds : ℤ)) * (aggSeconds : ℤ)

/-- `np.std` (population standard deviation, `ddof = 0`). -/
noncomputable def stdR (l : List ℝ) : ℝ :=
  Real.sqrt (((l.map (fun x => (x - meanL l) ^ 2)).sum) / l.length)

/-- One aggregated OHLCV bucket as built by `_aggregate_ticks`. -/
structure Bucket where
  datetime : ℤ
  openPrice : ℚ
  high : ℚ
  low : ℚ
  closePrice : ℚ
  volume : ℚ
  tickCount : ℕ
  avgPrice : ℚ
  priceStd : ℝ
  volumeWeightedPrice : ℚ

/-- `TickDataProcessor._calculate_vwap`: Σ(price·volume)/Σvolume when the
total volume is positive, the last trade price otherwise; the division
is syntactically guarded, so no division by zero is ever performed. -/
def calcVwap (ticks : List Tick) : ℚ :=
  if ticks = [] then 0
  else
    let totalValue := (ticks.map (fun tk => tk.last * tk.volume)).sum
    let totalVolume := (ticks.map (fun tk => tk.volume)).sum
    if 0 < totalVolume then totalValue / totalVolume
    else (ticks.getLastD ⟨0, 0, 0⟩).last

/-- The per-group body of `TickDataProcessor._aggregate_ticks`: the OHLCV
record of one nonempty bucket of ticks (the `headD`/`getLastD`/`maxP`
defaults are junk for `[]`, which the source's emptiness guard rules
out). -/
noncomputable def aggregateGroup (timestamp : ℤ) (groupTicks : List Tick) : Bucket :=
  let prices := groupTicks.map (fun tk => tk.last)
  let volumes := groupTicks.map (fun tk => tk.volume)
  { datetime := timestamp
    openPrice := prices.headD 0
    high := maxP prices
    low := minP prices
    closePrice := prices.getLastD 0
    volume := volumes.sum
    tickCount := groupTicks.length
    avgPrice := meanL prices
    priceStd := if 1 < prices.length then stdR (prices.map (fun q => (q : ℝ))) else 0
    volumeWeightedPrice := calcVwap groupTicks }

/-- `time_groups[ts].append(tick)` on a `defaultdict(list)`, keeping the
first-insertion order of keys. -/
def insertTick (groups : List (ℤ × List Tick)) (k : ℤ) (tk : Tick) :
    List (ℤ × List Tick) :=
  match groups with
  | [] => [(k, [tk])]
  | (k0, g) :: rest =>
      if k0 = k then (k0, g ++ [tk]) :: rest
      else (k0, g) :: insertTick rest k tk

/-- The grouping loop of `_aggregate_ticks`. -/
def groupTicksByTime (aggSeconds : ℕ) (ticks : List Tick) : List (ℤ × List Tick) :=
  ticks.foldl (fun gs tk => insertTick gs (aggTimestamp aggSeconds tk.datetime) tk) []

/-- `TickDataProcessor._update_aggregated_cache`: a new bucket is
appended only when its timestamp differs from the one of the most recent
cached bucket — a duplicate of the last timestamp is silently dropped —
and the cache is then truncated to its most recent 500 entries. -/
def updateAggregatedCache (cache : List Bucket) (data : List Bucket) : List Bucket :=
  let c1 := data.foldl
    (fun c d =>
      match c.getLast? with
      | none => c ++ [d]
      | some b => if b.datetime ≠ d.datetime then c ++ [d] else c)
    cache
  c1.drop (c1.length - 500)

/-! ## Fine `SecondLevelDetector`

The sub-minute variant.  Its price arithmetic is embedded over `ℝ`
because `_calculate_volatility` takes `np.std` (a square root); the
rate-limiter state it owns is the `FilterState` machine above.
-/

/-- `SecondLevelDetector.__init__` parameters: the inherited triple plus
the second-level `sensitivity_multiplier` (never read afterwards); the
history dicts it creates are `initFilterState`. -/
structure SecondLevelDetector where
  windowSize : ℤ
  minPeakHeight : ℚ
  minValleyDepth : ℚ
  sensitivityMultiplier : ℚ
deriving DecidableEq, Repr

/-- `SecondLevelDetector.__init__`: stores the arguments verbatim with
no validation (`sensitivity_multiplier` is the constant `1.5`). -/
def SecondLevelDetector.init (windowSize : ℤ) (minPeakHeight minValleyDepth : ℚ) :
    SecondLevelDetector :=
  { windowSize := windowSize, minPeakHeight := minPeakHeight,
    minValleyDepth := minValleyDepth, sensitivityMultiplier := 3 / 2 }

/-- `SecondLevelDetector._calculate_momentum`: `(p[i] - p[i-period]) / p[i-period]`
for `i = period … len-1`, empty when fewer than `period + 1` samples. -/
def calcMomentum {α : Type} [LinearOrderedField α] (ps : List α) (period : ℕ) : List α :=
  if ps.length < period + 1 then []
  else
    (List.range (ps.length - period)).map
      (fun j => (ps.getD (period + j) 0 - ps.getD j 0) / ps.getD j 0)

/-- `SecondLevelDetector._calculate_volatility`: the population standard
deviation of the one-step returns of the last `window` prices. -/
noncomputable def calcVolatility (ps : List ℝ) (window : ℕ) : ℝ :=
  if ps.length < window then 0
  else
    let t := takeLast ps window
    let rets := (List.zip t.tail t.dropLast).map (fun p => (p.1 - p.2) / p.2)
    if 0 < rets.length then stdR rets else 0

/-- `SecondLevelDetector._calculate_vwap_deviation`: relative deviation
of the last price from the last VWAP, `0` on empty input or zero VWAP. -/
def calcVwapDeviation {α : Type} [LinearOrderedField α] (prices vwap : List α) : α :=
  if prices.length = 0 ∨ vwap.length = 0 then 0
  else
    let currentPrice := prices.getLastD 0
    let currentVwap := vwap.getLastD 0
    if currentVwap = 0 then 0 else (currentPrice - currentVwap) / currentVwap

/-- `SecondLevelDetector._calculate_volume_intensity`. -/
def calcVolumeIntensity {α : Type} [LinearOrderedField α] (volumes : List α) : α :=
  if volumes.length < 10 then 1
  else
    let recentAvg := meanL (takeLast volumes 5)
    let historicalAvg :=
      if 20 ≤ volumes.length then meanL ((takeLast volumes 20).take 15)
      else meanL (volumes.take (volumes.length - 5))
    if 0 < historicalAvg then recentAvg / historicalAvg else 1

/-- `SecondLevelDetector._check_enhanced_volume_confirmation`: volume
surge (last volume above 1.3× its 10-sample mean) together with
price/volume synchrony. -/
def checkEnhancedVolumeConfirmation {α : Type} [LinearOrderedField α]
    (volumes prices : List α) : Bool :=
  if volumes.length < 10 ∨ prices.length < 10 then true
  else
    let volMa := meanL (takeLast volumes 10)
    let currentVol := volumes.getLastD 0
    let volumeSurge := decide (volMa * (13 / 10) < currentVol)
    let priceChange :=
      if 5 ≤ prices.length then (prices.getLastD 0 - lastN prices 5 0) / lastN prices 5 0
      else 0
    let volumeChange :=
      if 5 ≤ volumes.length then
        (volumes.getLastD 0 - meanL (takeLast volumes 5).dropLast) /
          meanL (takeLast volumes 5).dropLast
      else 0
    let priceVolumeSync :=
      decide ((0 < priceChange ∧ 0 < volumeChange) ∨ (priceChange < 0 ∧ 0 < volumeChange))
    volumeSurge && priceVolumeSync

/-- The real-time metrics dict consumed by `_analyze_microstructure`. -/
structure RTMetrics (α : Type) where
  priceMomentum : α
  volumeIntensity : α
  priceTrend : α
  tickFrequency : α
deriving Repr

/-- `SecondLevelDetector._analyze_microstructure`: ±0.3 for momentum
beyond 0.2%, ±0.2 for volume intensity outside [0.7, 1.5], ±0.3 for
trend beyond 0.1%, +0.2 for tick frequency above 30, clamped to
[-1, 1]. -/
def analyzeMicrostructure {α : Type} [LinearOrderedField α] (m : RTMetrics α) : α :=
  let s0 : α := 0
  let s1 := if 2 / 1000 < |m.priceMomentum| then
      (if 0 < m.priceMomentum then s0 + 3 / 10 else s0 - 3 / 10) else s0
  let s2 := if 15 / 10 < m.volumeIntensity then s1 + 2 / 10
    else if m.volumeIntensity < 7 / 10 then s1 - 2 / 10 else s1
  let s3 := if 1 / 1000 < |m.priceTrend| then
      (if 0 < m.priceTrend then s2 + 3 / 10 else s2 - 3 / 10) else s2
  let s4 := if (30 : α) < m.tickFrequency then s3 + 2 / 10 else s3
  max (-1) (min 1 s4)

/-- The weighted sum `sum(w for c, w in zip(conditions, weights) if c)`. -/
def weightedScore {α : Type} [LinearOrderedField α]
    (conditions : List Bool) (weights : List α) : α :=
  (conditions.zip weights).foldl (fun acc cw => if cw.1 then acc + cw.2 else acc) 0

/-- `SecondLevelDetector._detect_enhanced_peak`: 8 weighted conditions,
fires when the weighted score reaches 0.6, strength = the score (the
`ma_*` parameters are received but never read, as in the source). -/
def detectEnhancedPeak {α : Type} [LinearOrderedField α]
    (prices : List α) (currentPrice : α) (maShort maMedium maLong : List (Option α))
    (rsi momentum : List α) (volatility vwapDeviation : α)
    (volumeConf : Bool) (volumeIntensity microstructureScore : α)
    (highs lows : List α) : Bool × α :=
  if prices.length < 20 ∨ rsi.length = 0 then (false, 0)
  else
    let recentHigh :=
      if 15 ≤ highs.length then maxP (takeLast highs 15) else maxP (takeLast prices 15)
    let conditions : List Bool :=
      [decide (recentHigh * (999 / 1000) ≤ currentPrice),
       decide (65 < rsi.getLastD 0),
       decide (5 / 1000 < vwapDeviation),
       (if 3 ≤ momentum.length then
          decide (lastN momentum 1 0 < lastN momentum 2 0 ∧
                  lastN momentum 2 0 < lastN momentum 3 0)
        else false),
       volumeConf,
       decide (15 / 10 < volumeIntensity),
       decide (6 / 10 < microstructureScore),
       decide ((volatility + 2 / 100) / 2 < volatility)]
    let weights : List α :=
      [2 / 10, 15 / 100, 15 / 100, 1 / 10, 1 / 10, 1 / 10, 1 / 10, 1 / 10]
    let score := weightedScore conditions weights
    (decide (6 / 10 ≤ score), score)

/-- `SecondLevelDetector._detect_enhanced_valley`. -/
def detectEnhancedValley {α : Type} [LinearOrderedField α]
    (prices : List α) (currentPrice : α) (maShort maMedium maLong : List (Option α))
    (rsi momentum : List α) (volatility vwapDeviation : α)
    (volumeConf : Bool) (volumeIntensity microstructureScore : α)
    (highs lows : List α) : Bool × α :=
  if prices.length < 20 ∨ rsi.length = 0 then (false, 0)
  else
    let recentLow :=
      if 15 ≤ lows.length then minP (takeLast lows 15) else minP (takeLast prices 15)
    let conditions : List Bool :=
      [decide (currentPrice ≤ recentLow * (1001 / 1000)),
       decide (rsi.getLastD 0 < 35),
       decide (vwapDeviation < -(5 / 1000)),
       (if 3 ≤ momentum.length then
          decide (lastN momentum 2 0 < lastN momentum 1 0 ∧
                  lastN momentum 3 0 < lastN momentum 2 0)
        else false),
       volumeConf,
       decide (15 / 10 < volumeIntensity),
       decide (microstructureScore < -(6 / 10)),
       decide ((volatility + 2 / 100) / 2 < volatility)]
    let weights : List α :=
      [2 / 10, 15 / 100, 15 / 100, 1 / 10, 1 / 10, 1 / 10, 1 / 10, 1 / 10]
    let score := weightedScore conditions weights
    (decide (6 / 10 ≤ score), score)

/-- `SecondLevelDetector._calculate_enhanced_signal_quality`. -/
noncomputable def calculateEnhancedSignalQuality
    (peakStrength valleyStrength microstructureScore : ℝ) :
    String :=
  let totalScore := max peakStrength valleyStrength + |microstructureScore| * (2 / 10)
  if 8 / 10 < totalScore then "high"
  else if 6 / 10 < totalScore then "medium"
  else "low"

/-- The tick-aggregated OHLCV dict optionally passed to
`detect_second_signals`. -/
structure TickOHLCV where
  close : List ℝ
  volume : List ℝ
  high : List ℝ
  low : List ℝ
  vwap : List ℝ

/-- The dictionary returned by `detect_second_signals`.  The source's
`_empty_second_signal` dict omits the keys `volume_intensity`,
`price_volatility`, `vwap_deviation` and `microstructure_score`; the
embedding gives them their neutral defaults (1, 0, 0, 0) in
`emptySecondSignal` — no claim reads them on the empty path. -/
structure SecondSignalResult where
  peakSignal : Bool
  peakStrength : ℝ
  valleySignal : Bool
  valleyStrength : ℝ
  momentum : ℝ
  volumeConfirmation : Bool
  volumeIntensity : ℝ
  priceVolatility : ℝ
  vwapDeviation : ℝ
  microstructureScore : ℝ
  maShort : ℝ
  maMedium : ℝ
  rsi : ℝ
  signalQuality : String

/-- `SecondLevelDetector._empty_second_signal`. -/
noncomputable def emptySecondSignal : SecondSignalResult :=
  { peakSignal := false, peakStrength := 0, valleySignal := false,
    valleyStrength := 0, momentum := 0, volumeConfirmation := true,
    volumeIntensity := 1, priceVolatility := 0, vwapDeviation := 0,
    microstructureScore := 0, maShort := 0, maMedium := 0, rsi := 50,
    signalQuality := "low" }

/-- `SecondLevelDetector.detect_second_signals`: tick-data-enhanced
detection followed by the rate-limiter (`_filter_signal`) on both
directions; threads the limiter state explicitly. -/
noncomputable def detectSecondSignals (d : SecondLevelDetector) (st : FilterState)
    (priceSeries : List ℝ) (currentPrice : ℝ) (currentTime : ℚ)
    (volumeSeries : Option (List ℝ)) (tickOhlcv : Option TickOHLCV)
    (realTimeMetrics : Option (RTMetrics ℝ)) :
    SecondSignalResult × FilterState :=
  if (priceSeries.length : ℤ) < d.windowSize then (emptySecondSignal, st)
  else
    let pv : List ℝ × List ℝ × List ℝ × List ℝ × List ℝ :=
      match tickOhlcv with
      | some t =>
          if 0 < t.close.length then (t.close, t.volume, t.high, t.low, t.vwap)
          else (priceSeries, volumeSeries.getD [], priceSeries, priceSeries, priceSeries)
      | none => (priceSeries, volumeSeries.getD [], priceSeries, priceSeries, priceSeries)
    let prices := pv.1
    let volumes := pv.2.1
    let highs := pv.2.2.1
    let lows := pv.2.2.2.1
    let vwap := pv.2.2.2.2
    let maShort := calcMA prices 10
    let maMedium := calcMA prices 20
    let maLong := calcMA prices 30
    let rsi := calcRSI prices 30
    let momentum := calcMomentum prices 10
    let priceVolatility := calcVolatility prices 20
    let vwapDeviation := if 0 < vwap.length then calcVwapDeviation prices vwap else 0
    let vc : Bool × ℝ :=
      if 10 ≤ volumes.length then
        (checkEnhancedVolumeConfirmation volumes prices, calcVolumeIntensity volumes)
      else (true, 1)
    let microstructureScore :=
      match realTimeMetrics with
      | some m => analyzeMicrostructure m
      | none => 0
    let pk := detectEnhancedPeak prices currentPrice maShort maMedium maLong rsi
      momentum priceVolatility vwapDeviation vc.1 vc.2 microstructureScore highs lows
    let vl := detectEnhancedValley prices currentPrice maShort maMedium maLong rsi
      momentum priceVolatility vwapDeviation vc.1 vc.2 microstructureScore highs lows
    let pf := filterSignal st .peak pk.1 pk.2 currentTime
    let vf := filterSignal pf.2 .valley vl.1 vl.2 currentTime
    ({ peakSignal := pf.1.1, peakStrength := pf.1.2,
       valleySignal := vf.1.1, valleyStrength := vf.1.2,
       momentum := momentum.getLastD 0,
       volumeConfirmation := vc.1, volumeIntensity := vc.2,
       priceVolatility := priceVolatility, vwapDeviation := vwapDeviation,
       microstructureScore := microstructureScore,
       maShort := lastSome maShort currentPrice,
       maMedium := lastSome maMedium currentPrice,
       rsi := rsi.getLastD 50,
       signalQuality :=
         calculateEnhancedSignalQuality pf.1.2 vf.1.2 microstructureScore },
      vf.2)

/-- A cached bucket: timestamp 100, all prices 10. -/
noncomputable def sampleBucketOld : Bucket :=
  ⟨100, 10, 10, 10, 10, 1, 1, 10, 0, 10⟩

/-- A re-ingested bucket for the same timestamp 100 with different
values (close 20). -/
noncomputable def sampleBucketNew : Bucket :=
  ⟨100, 12, 20, 12, 20, 1, 1, 16, 0, 16⟩

/-! ## Helper lemmas -/

theorem le_maxP {α : Type} [LinearOrderedField α] :
    ∀ (l : List α), ∀ x ∈ l, x ≤ maxP l
  | [], x, hx => by cases hx
  | [y], x, hx => by
      rcases List.mem_singleton.mp hx with rfl
      simp [maxP]
  | y :: z :: t, x, hx => by
      rcases List.mem_cons.mp hx with rfl | hx
      · exact le_max_left _ _
      · exact le_trans (le_maxP (z :: t) x hx) (le_max_right _ _)

theorem minP_le {α : Type} [LinearOrderedField α] :
    ∀ (l : List α), ∀ x ∈ l, minP l ≤ x
  | [], x, hx => by cases hx
  | [y], x, hx => by
      rcases List.mem_singleton.mp hx with rfl
      simp [minP]
  | y :: z :: t, x, hx => by
      rcases List.mem_cons.mp hx with rfl | hx
      · exact min_le_left _ _
      · exact le_trans (min_le_right _ _) (minP_le (z :: t) x hx)

theorem headD_mem {α : Type} (l : List α) (d : α) (h : l ≠ []) : l.headD d ∈ l := by
  obtain ⟨a, t, rfl⟩ := List.exists_cons_of_ne_nil h
  simp

theorem getLastD_mem {α : Type} (l : List α) (d : α) (h : l ≠ []) : l.getLastD d ∈ l := by
  rw [List.getLastD_eq_getLast?, List.getLast?_eq_getLast l h]
  exact List.getLast_mem h

/-- `_confirm_signal` as a propositional characterisation. -/
theorem confirmSignal_eq_true_iff (f : MultiTimeframeFusion) (ms ss : Bool) (x : ℚ) :
    f.confirmSignal ms ss x = true ↔ (ms = true ∧ f.threshold ≤ x) := by
  cases ms
  · simp [MultiTimeframeFusion.confirmSignal]
  · simp only [MultiTimeframeFusion.confirmSignal, Bool.not_true, Bool.false_eq_true,
      if_false, true_and]
    constructor
    · intro h
      by_contra hc
      simp [if_pos (lt_of_not_le hc)] at h
    · intro h
      rw [if_neg (not_lt_of_le h)]

/-! ## C1 — fusion confirmation gate -/

/-- C1: the fused peak (resp. valley) signal is `true` iff the coarse
boolean for that direction is `true` and the fused strength
(`coarse·minute_weight + fine·second_weight`) is at least the threshold;
in particular a false coarse peak forces a false fused peak regardless of
the fine signal and of the fused strength. -/
theorem fusion_peak_requires_coarse_and_threshold
    (f : MultiTimeframeFusion) (hist : List FusionRecord)
    (m s : SigPair) (t : ℚ) :
    ((fuseSignals f hist m s t).1.peakSignal = true ↔
      (m.peakSignal = true ∧
        f.threshold ≤ m.peakStrength * f.minuteWeight + s.peakStrength * f.secondWeight)) ∧
    ((fuseSignals f hist m s t).1.valleySignal = true ↔
      (m.valleySignal = true ∧
        f.threshold ≤ m.valleyStrength * f.minuteWeight + s.valleyStrength * f.secondWeight)) ∧
    (m.peakSignal = false → (fuseSignals f hist m s t).1.peakSignal = false) := by
  refine ⟨?_, ?_, ?_⟩
  · simpa [fuseSignals] using confirmSignal_eq_true_iff f m.peakSignal s.peakSignal _
  · simpa [fuseSignals] using confirmSignal_eq_true_iff f m.valleySignal s.valleySignal _
  · intro h
    simp [fuseSignals, MultiTimeframeFusion.confirmSignal, h]

/-- Witness: with default weights 0.7/0.3 and threshold 0.6, a coarse
peak of `false` with a fine peak of `true` and fused strength 0.9 yields
a fused peak signal of `false`. -/
theorem fusion_peak_requires_coarse_and_threshold_witness :
    (fuseSignals (MultiTimeframeFusion.init (7 / 10) (3 / 10) (6 / 10)) []
        ⟨false, 1, false, 0⟩ ⟨true, 2 / 3, true, 0⟩ 0).1.peakSignal = false :=
  (fusion_peak_requires_coarse_and_threshold
      (MultiTimeframeFusion.init (7 / 10) (3 / 10) (6 / 10)) []
      ⟨false, 1, false, 0⟩ ⟨true, 2 / 3, true, 0⟩ 0).2.2 rfl

/-! ## C5 — bucket OHLC invariants -/

/-- C5: every bucket aggregated from a nonempty group of ticks satisfies
`low ≤ open, close, high ≤ high` and `tick_count ≥ 1`, for every
ordering of the ticks in the group (the statement quantifies over all
tick lists). -/
theorem bucket_ohlc_invariants (k : ℤ) (ts : List Tick) (h : ts ≠ []) :
    (aggregateGroup k ts).openPrice ≤ (aggregateGroup k ts).high ∧
    (aggregateGroup k ts).closePrice ≤ (aggregateGroup k ts).high ∧
    (aggregateGroup k ts).low ≤ (aggregateGroup k ts).high ∧
    (aggregateGroup k ts).low ≤ (aggregateGroup k ts).openPrice ∧
    (aggregateGroup k ts).low ≤ (aggregateGroup k ts).closePrice ∧
    1 ≤ (aggregateGroup k ts).tickCount := by
  have hp : ts.map (fun tk => tk.last) ≠ [] := by
    simpa using h
  have hhead := headD_mem (ts.map (fun tk => tk.last)) 0 hp
  have hlast := getLastD_mem (ts.map (fun tk => tk.last)) 0 hp
  refine ⟨?_, ?_, ?_, ?_, ?_, ?_⟩
  · exact le_maxP _ _ hhead
  · exact le_maxP _ _ hlast
  · exact le_trans (minP_le _ _ hhead) (le_maxP _ _ hhead)
  · exact minP_le _ _ hhead
  · exact minP_le _ _ hlast
  · simpa [aggregateGroup, Nat.one_le_iff_ne_zero] using h

/-- Witness: the invariants on a concrete 3-tick group, in reversed
time order. -/
theorem bucket_ohlc_invariants_witness :
    (aggregateGroup 0 [⟨2, 3, 1⟩, ⟨0, 7, 2⟩, ⟨1, 5, 0⟩]).openPrice ≤
        (aggregateGroup 0 [⟨2, 3, 1⟩, ⟨0, 7, 2⟩, ⟨1, 5, 0⟩]).high ∧
      (aggregateGroup 0 [⟨2, 3, 1⟩, ⟨0, 7, 2⟩, ⟨1, 5, 0⟩]).closePrice ≤
        (aggregateGroup 0 [⟨2, 3, 1⟩, ⟨0, 7, 2⟩, ⟨1, 5, 0⟩]).high ∧
      (aggregateGroup 0 [⟨2, 3, 1⟩, ⟨0, 7, 2⟩, ⟨1, 5, 0⟩]).low ≤
        (aggregateGroup 0 [⟨2, 3, 1⟩, ⟨0, 7, 2⟩, ⟨1, 5, 0⟩]).high ∧
      (aggregateGroup 0 [⟨2, 3, 1⟩, ⟨0, 7, 2⟩, ⟨1, 5, 0⟩]).low ≤
        (aggregateGroup 0 [⟨2, 3, 1⟩, ⟨0, 7, 2⟩, ⟨1, 5, 0⟩]).openPrice ∧
      (aggregateGroup 0 [⟨2, 3, 1⟩, ⟨0, 7, 2⟩, ⟨1, 5, 0⟩]).low ≤
        (aggregateGroup 0 [⟨2, 3, 1⟩, ⟨0, 7, 2⟩, ⟨1, 5, 0⟩]).closePrice ∧
      1 ≤ (aggregateGroup 0 [⟨2, 3, 1⟩, ⟨0, 7, 2⟩, ⟨1, 5, 0⟩]).tickCount :=
  bucket_ohlc_invariants 0 [⟨2, 3, 1⟩, ⟨0, 7, 2⟩, ⟨1, 5, 0⟩] (by decide)

/-! ## C6 — VWAP zero-volume fallback -/

/-- C6: on a nonempty tick list the VWAP is Σ(price·volume)/Σvolume when
the total volume is positive and the last trade price when it is 0 (the
division is taken only under the positivity guard, so no division by
zero occurs). -/
theorem vwap_zero_volume_fallback (ticks : List Tick) (h : ticks ≠ []) :
    ((ticks.map (fun tk => tk.volume)).sum = 0 →
        calcVwap ticks = (ticks.getLastD ⟨0, 0, 0⟩).last) ∧
    (0 < (ticks.map (fun tk => tk.volume)).sum →
        calcVwap ticks =
          (ticks.map (fun tk => tk.last * tk.volume)).sum /
            (ticks.map (fun tk => tk.volume)).sum) := by
  constructor
  · intro hz
    simp [calcVwap, h, hz]
  · intro hpos
    simp [calcVwap, h, if_pos hpos]

/-- Witness: a two-tick bucket with all volumes 0 has VWAP 12 (its last
trade price); with positive volumes VWAP is the volume-weighted mean. -/
theorem vwap_zero_volume_fallback_witness :
    calcVwap [⟨0, 10, 0⟩, ⟨1, 12, 0⟩] = 12 ∧
      calcVwap [⟨0, 10, 1⟩, ⟨1, 12, 3⟩] = 46 / 4 := by
  constructor
  · rw [(vwap_zero_volume_fallback [⟨0, 10, 0⟩, ⟨1, 12, 0⟩] (by simp)).1 (by simp)]
    rfl
  · rw [(vwap_zero_volume_fallback [⟨0, 10, 1⟩, ⟨1, 12, 3⟩] (by simp)).2 (by norm_num)]
    norm_num

/-! ## C8 — constructors accept invalid parameters (code bug)

Specification §7 requires invalid construction parameters (negative or
zero window, negative weights) to fail fast at construction.  The
constructors in the source perform no validation at all: they are total
and store whatever they are given.  The theorem evaluates the embedded
constructors at invalid inputs and shows the values are accepted
verbatim. -/

/-- C8: `PeakValleyDetector(window_size=-5, ...)`,
`MultiTimeframeFusion(minute_weight=-0.7, ...)` and
`SecondLevelDetector(window_size=0, ...)` all construct successfully and
store the invalid parameters unchanged — construction never raises. -/
theorem constructors_accept_invalid_params :
    (PeakValleyDetector.init (-5) (-(1 / 100)) (-(2 / 100))).windowSize = -5 ∧
    (PeakValleyDetector.init (-5) (-(1 / 100)) (-(2 / 100))).minPeakHeight = -(1 / 100) ∧
    (MultiTimeframeFusion.init (-(7 / 10)) (3 / 10) (6 / 10)).minuteWeight = -(7 / 10) ∧
    (SecondLevelDetector.init 0 (5 / 1000) (5 / 1000)).windowSize = 0 :=
  ⟨rfl, rfl, rfl, rfl⟩

/-! ## C9 — short series yield the neutral result -/

/-- C9: for a price series strictly shorter than the configured window,
`detect_signals` returns the empty signal (`false`/0 everywhere) and
`detect_second_signals` returns the empty second-level signal and leaves
the rate-limiter state untouched; both are total functions, so no
exception is possible. -/
theorem short_series_neutral :
    (∀ (d : PeakValleyDetector) (ps : List ℚ) (cp t : ℚ),
        (ps.length : ℤ) < d.windowSize →
          detectSignals d ps cp t = emptySignal) ∧
    (∀ (d : SecondLevelDetector) (st : FilterState) (ps : List ℝ) (cp : ℝ) (t : ℚ)
        (vs : Option (List ℝ)) (ohlcv : Option TickOHLCV) (rtm : Option (RTMetrics ℝ)),
        (ps.length : ℤ) < d.windowSize →
          detectSecondSignals d st ps cp t vs ohlcv rtm = (emptySecondSignal, st)) := by
  constructor
  · intro d ps cp t h
    unfold detectSignals
    rw [if_pos h]
  · intro d st ps cp t vs ohlcv rtm h
    unfold detectSecondSignals
    rw [if_pos h]

/-- Witness: a 3-sample series against the default windows (20 coarse,
60 fine). -/
theorem short_series_neutral_witness :
    detectSignals (PeakValleyDetector.init 20 (2 / 100) (2 / 100)) [1, 2, 3] 3 0 =
        emptySignal ∧
      detectSecondSignals (SecondLevelDetector.init 60 (5 / 1000) (5 / 1000))
          initFilterState [1, 2, 3] 3 0 none none none =
        (emptySecondSignal, initFilterState) :=
  ⟨short_series_neutral.1 _ [1, 2, 3] 3 0 (by decide),
    short_series_neutral.2 _ initFilterState [1, 2, 3] 3 0 none none none (by decide)⟩

/-! ## C7 — re-ingesting an existing timestamp (corrected)

The claim says re-ingestion of an already-cached timestamp overwrites
the stored bucket (last-write-wins).  The source checks
`cache[-1]['datetime'] != data['datetime']` and only *appends* on a
mismatch: a duplicate of the most recent timestamp is silently dropped,
so the cache keeps the originally ingested values (first-write-wins). -/

/-- C7 counterexample: with bucket `sampleBucketOld` (timestamp 100,
close 10) cached, re-ingesting `sampleBucketNew` (timestamp 100, close
20) leaves the cache at the old bucket — it is not overwritten with the
newly ingested values as the claim states. -/
theorem reingest_does_not_overwrite :
    updateAggregatedCache [sampleBucketOld] [sampleBucketNew] = [sampleBucketOld] ∧
      updateAggregatedCache [sampleBucketOld] [sampleBucketNew] ≠ [sampleBucketNew] := by
  constructor
  · rfl
  · intro hEq
    have hclose : sampleBucketOld.closePrice = sampleBucketNew.closePrice := by
      have h1 : updateAggregatedCache [sampleBucketOld] [sampleBucketNew] =
          [sampleBucketOld] := rfl
      have := h1 ▸ hEq
      exact congrArg (fun l => (l.headD sampleBucketOld).closePrice) this
    have : (10 : ℚ) = 20 := hclose
    norm_num at this

/-- C7 amended: re-ingesting a bucket whose timestamp equals that of the
most recently cached bucket leaves the cache unchanged — the new values
are discarded (first-write-wins), the cache still holds exactly the
originally ingested bucket for that timestamp, and the operation is
idempotent. -/
theorem reingest_existing_timestamp_keeps_original
    (cache : List Bucket) (d b : Bucket)
    (hlen : cache.length ≤ 500)
    (hlast : cache.getLast? = some b)
    (hts : b.datetime = d.datetime) :
    updateAggregatedCache cache [d] = cache := by
  unfold updateAggregatedCache
  simp only [List.foldl_cons, List.foldl_nil, hlast, hts, ne_eq, not_true_eq_false,
    if_false, ite_self]
  have : cache.length - 500 = 0 := Nat.sub_eq_zero_of_le hlen
  rw [this, List.drop_zero]

/-- Witness for the amended C7 on the concrete buckets. -/
theorem reingest_existing_timestamp_keeps_original_witness :
    updateAggregatedCache [sampleBucketOld] [sampleBucketNew] = [sampleBucketOld] :=
  reingest_existing_timestamp_keeps_original [sampleBucketOld] sampleBucketNew
    sampleBucketOld (by decide) rfl rfl

/-! ## Rate-limiter step lemmas -/

theorem lastTimeOf_setLastTime (s : FilterState) (ty : SigType) (t : ℚ) (ty2 : SigType) :
    lastTimeOf (setLastTime s ty t) ty2 = if ty2 = ty then some t else lastTimeOf s ty2 := by
  cases ty <;> cases ty2 <;> simp [setLastTime, lastTimeOf]

theorem countD_setLastTime (s : FilterState) (ty : SigType) (t : ℚ) (k : ℤ) :
    countD (setLastTime s ty t) k = countD s k := by
  cases ty <;> simp [setLastTime, countD]

theorem lastTimeOf_withCounts (s : FilterState) (x : List (ℤ × ℕ)) (ty2 : SigType) :
    lastTimeOf { s with falseSignalCount := x } ty2 = lastTimeOf s ty2 := by
  cases ty2 <;> rfl

theorem lookupCount_setCount :
    ∀ (l : List (ℤ × ℕ)) (k : ℤ) (v : ℕ) (k0 : ℤ),
      lookupCount (setCount l k v) k0 = if k = k0 then some v else lookupCount l k0
  | [], k, v, k0 => by simp [setCount, lookupCount]
  | (k1, v1) :: rest, k, v, k0 => by
      by_cases h1 : k1 = k
      · subst h1
        by_cases h2 : k1 = k0 <;> simp [setCount, lookupCount, h2]
      · by_cases h2 : k1 = k0
        · subst h2
          have h3 : ¬k = k1 := fun h => h1 h.symm
          simp [setCount, lookupCount, h1, h3]
        · simp [setCount, lookupCount, h1, h2, lookupCount_setCount rest k v k0]

/-- Initialising an absent minute key to 0 changes no counter reading. -/
theorem getD_lookupCount_initMinute (l : List (ℤ × ℕ)) (m k : ℤ) :
    (lookupCount (initMinute l m) k).getD 0 = (lookupCount l k).getD 0 := by
  unfold initMinute
  by_cases h : (lookupCount l m).isNone
  · rw [if_pos h, lookupCount_setCount]
    by_cases hk : m = k
    · subst hk
      rw [if_pos rfl, Option.isNone_iff_eq_none.mp h]
      rfl
    · rw [if_neg hk]
  · rw [if_neg h]

theorem countD_initMinute (s : FilterState) (m k : ℤ) :
    countD { s with falseSignalCount := initMinute s.falseSignalCount m } k =
      countD s k :=
  getD_lookupCount_initMinute s.falseSignalCount m k

theorem filterRest_fst (s : FilterState) (ty : SigType) (sig : Bool) (str t : ℚ) :
    (filterRest s ty sig str t).1 =
      if 3 ≤ countD s (minuteKey t) then ((false : Bool), (0 : ℚ)) else (sig, str) := by
  simp only [filterRest]
  rw [countD_initMinute]
  by_cases h3 : 3 ≤ countD s (minuteKey t)
  · simp [h3]
  · cases sig <;> simp [h3]

theorem lastTimeOf_filterRest (s : FilterState) (ty : SigType) (sig : Bool)
    (str t : ℚ) (ty2 : SigType) :
    lastTimeOf ((filterRest s ty sig str t).2) ty2 =
      if sig = true ∧ countD s (minuteKey t) < 3 ∧ ty2 = ty then some t
      else lastTimeOf s ty2 := by
  simp only [filterRest]
  rw [countD_initMinute]
  by_cases h3 : 3 ≤ countD s (minuteKey t)
  · have hn : ¬countD s (minuteKey t) < 3 := not_lt.mpr h3
    simp [h3, hn, lastTimeOf_withCounts]
  · have hc : countD s (minuteKey t) < 3 := lt_of_not_le h3
    cases sig
    · simp [h3, lastTimeOf_withCounts]
    · by_cases hty : ty2 = ty <;>
        simp [h3, hc, hty, lastTimeOf_setLastTime, lastTimeOf_withCounts]

theorem countD_filterRest (s : FilterState) (ty : SigType) (sig : Bool)
    (str t : ℚ) (k : ℤ) :
    countD ((filterRest s ty sig str t).2) k =
      countD s k +
        (if sig = true ∧ countD s (minuteKey t) < 3 ∧ minuteKey t = k then 1 else 0) := by
  simp only [filterRest]
  rw [countD_initMinute]
  by_cases h3 : 3 ≤ countD s (minuteKey t)
  · have hn : ¬countD s (minuteKey t) < 3 := not_lt.mpr h3
    simp [h3, hn, countD_initMinute]
  · have hc : countD s (minuteKey t) < 3 := lt_of_not_le h3
    rw [if_neg h3]
    by_cases hsig : sig = true
    · rw [if_pos hsig]
      show countD (setLastTime _ ty t) k = _
      rw [countD_setLastTime]
      show (lookupCount
          (setCount (initMinute s.falseSignalCount (minuteKey t)) (minuteKey t)
            (countD s (minuteKey t) + 1)) k).getD 0 = _
      rw [lookupCount_setCount]
      by_cases hk : minuteKey t = k
      · subst hk
        rw [if_pos rfl]
        have hc2 : (lookupCount s.falseSignalCount (minuteKey t)).getD 0 < 3 := hc
        simp [hsig, hc2, countD]
      · rw [if_neg hk, getD_lookupCount_initMinute]
        simp [hk, countD]
    · rw [if_neg hsig]
      show countD { s with falseSignalCount := initMinute s.falseSignalCount (minuteKey t) } k = _
      rw [countD_initMinute]
      simp [hsig]

theorem filterSignal_eq_filterRest (s : FilterState) (c : Call) (h : cooldownOk s c) :
    filterSignal s c.ty c.signal c.strength c.time =
      filterRest s c.ty c.signal c.strength c.time := by
  cases hl : lastTimeOf s c.ty with
  | none => unfold filterSignal; rw [hl]
  | some t0 =>
      unfold filterSignal
      rw [hl]
      have hnl : ¬c.time - t0 < 15 := not_lt.mpr (h t0 hl)
      simp [hnl]

theorem callResult_of_cooldownBlocked (s : FilterState) (c : Call) (t0 : ℚ)
    (hl : lastTimeOf s c.ty = some t0) (hlt : c.time - t0 < 15) :
    callResult s c = (false, 0) ∧ applyCall s c = s := by
  unfold callResult applyCall filterSignal
  rw [hl]
  simp [hlt]

theorem cooldown_dichotomy (s : FilterState) (c : Call) :
    cooldownOk s c ∨ ∃ t0, lastTimeOf s c.ty = some t0 ∧ c.time - t0 < 15 := by
  cases hl : lastTimeOf s c.ty with
  | none =>
      left
      intro t0 h0
      rw [hl] at h0
      cases h0
  | some t0 =>
      by_cases hlt : c.time - t0 < 15
      · right
        refine ⟨t0, ?_, hlt⟩
        first
        | exact hl
        | rfl
      · left
        intro t1 h1
        rw [hl] at h1
        cases h1
        exact le_of_not_lt hlt

theorem callResult_of_cooldownOk (s : FilterState) (c : Call) (h : cooldownOk s c) :
    callResult s c =
      if 3 ≤ countD s (minuteKey c.time) then ((false : Bool), (0 : ℚ))
      else (c.signal, c.strength) := by
  unfold callResult
  rw [filterSignal_eq_filterRest s c h, filterRest_fst]

theorem applyCall_lastTime_of_cooldownOk (s : FilterState) (c : Call)
    (h : cooldownOk s c) (ty2 : SigType) :
    lastTimeOf (applyCall s c) ty2 =
      if c.signal = true ∧ countD s (minuteKey c.time) < 3 ∧ ty2 = c.ty then some c.time
      else lastTimeOf s ty2 := by
  unfold applyCall
  rw [filterSignal_eq_filterRest s c h, lastTimeOf_filterRest]

theorem applyCall_countD_of_cooldownOk (s : FilterState) (c : Call)
    (h : cooldownOk s c) (k : ℤ) :
    countD (applyCall s c) k =
      countD s k +
        (if c.signal = true ∧ countD s (minuteKey c.time) < 3 ∧ minuteKey c.time = k
          then 1 else 0) := by
  unfold applyCall
  rw [filterSignal_eq_filterRest s c h, countD_filterRest]

theorem fire_conditions (s : FilterState) (c : Call) (h : (callResult s c).1 = true) :
    cooldownOk s c ∧ countD s (minuteKey c.time) < 3 ∧ c.signal = true := by
  rcases cooldown_dichotomy s c with hok | ⟨t0, hl, hlt⟩
  · rw [callResult_of_cooldownOk s c hok] at h
    by_cases h3 : 3 ≤ countD s (minuteKey c.time)
    · rw [if_pos h3] at h
      simp at h
    · rw [if_neg h3] at h
      exact ⟨hok, lt_of_not_le h3, h⟩
  · rw [(callResult_of_cooldownBlocked s c t0 hl hlt).1] at h
    simp at h

theorem callResult_cap (s : FilterState) (c : Call)
    (h3 : 3 ≤ countD s (minuteKey c.time)) : callResult s c = (false, 0) := by
  rcases cooldown_dichotomy s c with hok | ⟨t0, hl, hlt⟩
  · rw [callResult_of_cooldownOk s c hok, if_pos h3]
  · exact (callResult_of_cooldownBlocked s c t0 hl hlt).1

theorem applyCall_countD (s : FilterState) (c : Call) (k : ℤ) :
    countD (applyCall s c) k =
      countD s k +
        (if (callResult s c).1 = true ∧ minuteKey c.time = k then 1 else 0) := by
  rcases cooldown_dichotomy s c with hok | ⟨t0, hl, hlt⟩
  · rw [applyCall_countD_of_cooldownOk s c hok k]
    by_cases hfire : (callResult s c).1 = true
    · obtain ⟨_, hcap, hsig⟩ := fire_conditions s c hfire
      by_cases hk : minuteKey c.time = k
      · have hck : countD s k < 3 := hk ▸ hcap
        simp [hsig, hcap, hk, hfire, hck]
      · simp [hsig, hcap, hk, hfire]
    · have hns : ¬(c.signal = true ∧ countD s (minuteKey c.time) < 3) := by
        rintro ⟨hs, hc3⟩
        apply hfire
        rw [callResult_of_cooldownOk s c hok, if_neg (not_le.mpr hc3)]
        exact hs
      have h2 : ¬(c.signal = true ∧ countD s (minuteKey c.time) < 3 ∧ minuteKey c.time = k) :=
        fun hx => hns ⟨hx.1, hx.2.1⟩
      simp [hfire, h2]
  · have hres := (callResult_of_cooldownBlocked s c t0 hl hlt).1
    have hst := (callResult_of_cooldownBlocked s c t0 hl hlt).2
    rw [hst, hres]
    simp

theorem applyCall_lastTime_invariant (s : FilterState) (c : Call) (ty2 : SigType) :
    lastTimeOf (applyCall s c) ty2 = lastTimeOf s ty2 ∨
      (ty2 = c.ty ∧ cooldownOk s c ∧ lastTimeOf (applyCall s c) ty2 = some c.time) := by
  rcases cooldown_dichotomy s c with hok | ⟨t0, hl, hlt⟩
  · by_cases hc : c.signal = true ∧ countD s (minuteKey c.time) < 3 ∧ ty2 = c.ty
    · right
      refine ⟨hc.2.2, hok, ?_⟩
      rw [applyCall_lastTime_of_cooldownOk s c hok ty2, if_pos hc]
    · left
      rw [applyCall_lastTime_of_cooldownOk s c hok ty2, if_neg hc]
  · left
    rw [(callResult_of_cooldownBlocked s c t0 hl hlt).2]

theorem runFilter_cons (s : FilterState) (c : Call) (cs : List Call) :
    runFilter s (c :: cs) = runFilter (applyCall s c) cs := by
  simp [runFilter]

/-- Once a fire of type `ty` at time `t` is recorded, the recorded
last-fire time for `ty` stays `t` or moves at least 15 seconds past `t`,
through any further sequence of calls. -/
theorem lastTime_persists (ty : SigType) (t : ℚ) (cs : List Call) :
    ∀ (s : FilterState),
      (∃ t1, lastTimeOf s ty = some t1 ∧ (t1 = t ∨ t + 15 ≤ t1)) →
      ∃ t2, lastTimeOf (runFilter s cs) ty = some t2 ∧ (t2 = t ∨ t + 15 ≤ t2) := by
  induction cs with
  | nil =>
      intro s h
      simpa [runFilter] using h
  | cons c cs ih =>
      intro s h
      obtain ⟨t1, hl, ht1⟩ := h
      rw [runFilter_cons]
      apply ih
      rcases applyCall_lastTime_invariant s c ty with he | ⟨hty, hok, hnew⟩
      · exact ⟨t1, by rw [he]; exact hl, ht1⟩
      · refine ⟨c.time, hnew, Or.inr ?_⟩
        have h15 : 15 ≤ c.time - t1 := hok t1 (by rw [← hty]; exact hl)
        rcases ht1 with rfl | hge <;> linarith

/-! ## C2 — 15-second per-type cooldown -/

/-- C2: (i) if a candidate of some type fires at time `t`, every later
candidate of the same type whose call time `t2` satisfies `t2 - t < 15`
returns exactly `(false, 0)`, whatever happens in between; (ii) a
candidate arriving at least 15 seconds after the recorded fire of its
type is not suppressed by the cooldown: if the per-minute cap has not
been reached it passes through unchanged. -/
theorem cooldown_suppression :
    (∀ (s0 : FilterState) (pre mid : List Call) (c cNext : Call),
        cNext.ty = c.ty →
        (callResult (runFilter s0 pre) c).1 = true →
        cNext.time - c.time < 15 →
        callResult (runFilter (applyCall (runFilter s0 pre) c) mid) cNext = (false, 0)) ∧
    (∀ (s : FilterState) (c : Call) (t0 : ℚ),
        lastTimeOf s c.ty = some t0 →
        15 ≤ c.time - t0 →
        countD s (minuteKey c.time) < 3 →
        callResult s c = (c.signal, c.strength)) := by
  constructor
  · intro s0 pre mid c cNext hty hfire hlt
    obtain ⟨hok, hcap, hsig⟩ := fire_conditions (runFilter s0 pre) c hfire
    have hfireState :
        lastTimeOf (applyCall (runFilter s0 pre) c) c.ty = some c.time := by
      rw [applyCall_lastTime_of_cooldownOk (runFilter s0 pre) c hok c.ty,
        if_pos ⟨hsig, hcap, rfl⟩]
    obtain ⟨t2, hl2, ht2⟩ :=
      lastTime_persists c.ty c.time mid (applyCall (runFilter s0 pre) c)
        ⟨c.time, hfireState, Or.inl rfl⟩
    have hlNext :
        lastTimeOf (runFilter (applyCall (runFilter s0 pre) c) mid) cNext.ty = some t2 := by
      rw [hty]
      exact hl2
    have hblocked : cNext.time - t2 < 15 := by
      rcases ht2 with rfl | hge <;> linarith
    exact (callResult_of_cooldownBlocked _ cNext t2 hlNext hblocked).1
  · intro s c t0 hl h15 hcap
    have hok : cooldownOk s c := by
      intro t1 h1
      rw [hl] at h1
      cases h1
      exact h15
    rw [callResult_of_cooldownOk s c hok, if_neg (not_le.mpr hcap)]

/-- Witness: a peak fire at t = 0 suppresses a peak candidate at t = 10
to `(false, 0)`; with the last peak fire at t = 0, a peak candidate at
t = 20 (cooldown satisfied, 1 < 3 fires this minute) passes through as
`(true, 0.8)`. -/
theorem cooldown_suppression_witness :
    callResult
        (runFilter (applyCall (runFilter initFilterState [])
          ⟨.peak, true, 8 / 10, 0⟩) [])
        ⟨.peak, true, 9 / 10, 10⟩ = (false, 0) ∧
      callResult ⟨some 0, none, [(0, 1)]⟩ ⟨.peak, true, 8 / 10, 20⟩ = (true, 8 / 10) := by
  constructor
  · apply cooldown_suppression.1 initFilterState [] [] ⟨.peak, true, 8 / 10, 0⟩
      ⟨.peak, true, 9 / 10, 10⟩ rfl
    · norm_num [callResult, filterSignal, filterRest, lastTimeOf, initFilterState,
        runFilter, minuteKey, countD, lookupCount, setCount]
    · norm_num
  · apply cooldown_suppression.2 ⟨some 0, none, [(0, 1)]⟩ ⟨.peak, true, 8 / 10, 20⟩ 0 rfl
    · norm_num
    · norm_num [minuteKey, countD, lookupCount]

/-! ## C3 — 3-per-minute cap -/

theorem countD_runFilter (m : ℤ) (cs : List Call) :
    ∀ s, countD (runFilter s cs) m = countD s m + firesInMinute s cs m := by
  induction cs with
  | nil =>
      intro s
      simp [runFilter, firesInMinute]
  | cons c cs ih =>
      intro s
      rw [runFilter_cons, ih, applyCall_countD, firesInMinute]
      exact Nat.add_assoc _ _ _

theorem countD_le_three (cs : List Call) :
    ∀ s m, countD s m ≤ 3 → countD (runFilter s cs) m ≤ 3 := by
  induction cs with
  | nil =>
      intro s m h
      simpa [runFilter] using h
  | cons c cs ih =>
      intro s m h
      rw [runFilter_cons]
      apply ih
      rw [applyCall_countD]
      by_cases hf : (callResult s c).1 = true ∧ minuteKey c.time = m
      · obtain ⟨_, hcap, _⟩ := fire_conditions s c hf.1
        have hm : countD s m < 3 := hf.2 ▸ hcap
        rw [if_pos hf]
        omega
      · rw [if_neg hf]
        simpa using h

/-- C3: from a fresh rate-limiter state, at most 3 candidates fire in
any one calendar minute; and once 3 have fired in a minute, any further
candidate whose call falls in that minute returns `(false, 0)` no matter
its strength. -/
theorem per_minute_cap :
    (∀ (cs : List Call) (m : ℤ), firesInMinute initFilterState cs m ≤ 3) ∧
    (∀ (cs : List Call) (m : ℤ) (c : Call),
        firesInMinute initFilterState cs m = 3 →
        minuteKey c.time = m →
        callResult (runFilter initFilterState cs) c = (false, 0)) := by
  have hinit : ∀ m, countD initFilterState m = 0 := fun m => rfl
  constructor
  · intro cs m
    have h := countD_le_three cs initFilterState m (by rw [hinit m]; omega)
    rw [countD_runFilter, hinit m] at h
    simpa using h
  · intro cs m c h3 hkey
    apply callResult_cap
    rw [hkey, countD_runFilter, hinit, h3]

/-- Witness: three fires in minute 0 (peak t=0, valley t=1, peak t=16 —
types alternated so the cooldown does not interfere), then a strong
valley candidate at t=17 (cooldown satisfied) is suppressed to
`(false, 0)` by the cap. -/
theorem per_minute_cap_witness :
    callResult
        (runFilter initFilterState
          [⟨.peak, true, 7 / 10, 0⟩, ⟨.valley, true, 7 / 10, 1⟩, ⟨.peak, true, 7 / 10, 16⟩])
        ⟨.valley, true, 9 / 10, 17⟩ = (false, 0) := by
  apply per_minute_cap.2
    [⟨.peak, true, 7 / 10, 0⟩, ⟨.valley, true, 7 / 10, 1⟩, ⟨.peak, true, 7 / 10, 16⟩] 0
    ⟨.valley, true, 9 / 10, 17⟩
  · norm_num [firesInMinute, callResult, applyCall, runFilter, filterSignal, filterRest,
      lastTimeOf, setLastTime, initFilterState, minuteKey, countD, lookupCount, setCount]
  · norm_num [minuteKey]

/-! ## C10 — false candidates pass through without touching state -/

/-- C10: a candidate whose own signal is `false` and which is not
suppressed (its type's cooldown has passed and the per-minute cap is not
reached) is returned as `(false, strength)` with its strength unchanged;
and a false candidate never updates the limiter state — every recorded
last-fire time and every per-minute fire count reads the same after the
call (the timestamp is recorded and the counter incremented only on a
fired candidate). -/
theorem false_candidate_frame (s : FilterState) (c : Call) (hsig : c.signal = false) :
    (cooldownOk s c → countD s (minuteKey c.time) < 3 →
        callResult s c = (false, c.strength)) ∧
    (∀ ty, lastTimeOf (applyCall s c) ty = lastTimeOf s ty) ∧
    (∀ k, countD (applyCall s c) k = countD s k) := by
  refine ⟨?_, ?_, ?_⟩
  · intro hok hcap
    rw [callResult_of_cooldownOk s c hok, if_neg (not_le.mpr hcap), hsig]
  · intro ty
    rcases cooldown_dichotomy s c with hok | ⟨t0, hl, hlt⟩
    · rw [applyCall_lastTime_of_cooldownOk s c hok ty, if_neg]
      rintro ⟨h1, -⟩
      rw [hsig] at h1
      cases h1
    · rw [(callResult_of_cooldownBlocked s c t0 hl hlt).2]
  · intro k
    rcases cooldown_dichotomy s c with hok | ⟨t0, hl, hlt⟩
    · rw [applyCall_countD_of_cooldownOk s c hok k, if_neg]
      · simp
      · rintro ⟨h1, -⟩
        rw [hsig] at h1
        cases h1
    · rw [(callResult_of_cooldownBlocked s c t0 hl hlt).2]

/-- Witness: with last peak fire at t = 0 and 2 fires recorded for
minute 0, a false peak candidate of strength 0.4 at t = 30 returns
`(false, 0.4)` and leaves the recorded time and count unchanged. -/
theorem false_candidate_frame_witness :
    callResult ⟨some 0, none, [(0, 2)]⟩ ⟨.peak, false, 4 / 10, 30⟩ = (false, 4 / 10) ∧
      lastTimeOf (applyCall ⟨some 0, none, [(0, 2)]⟩ ⟨.peak, false, 4 / 10, 30⟩) .peak =
        some 0 ∧
      countD (applyCall ⟨some 0, none, [(0, 2)]⟩ ⟨.peak, false, 4 / 10, 30⟩) 0 = 2 := by
  have hframe := false_candidate_frame ⟨some 0, none, [(0, 2)]⟩ ⟨.peak, false, 4 / 10, 30⟩ rfl
  refine ⟨?_, ?_, ?_⟩
  · apply hframe.1
    · intro t0 h0
      cases h0
      norm_num
    · norm_num [minuteKey, countD, lookupCount]
  · rw [hframe.2.1 .peak]
    rfl
  · rw [hframe.2.2 0]
    rfl

/-! ## C4 — RSI range and limit values -/

theorem gainsOf_nonneg {α : Type} [LinearOrderedField α] (ps : List α) :
    ∀ x ∈ gainsOf ps, 0 ≤ x := by
  intro x hx
  rcases List.mem_cons.mp hx with rfl | hx
  · exact le_refl 0
  · obtain ⟨p, hp, rfl⟩ := List.mem_map.mp hx
    exact le_max_right _ _

theorem lossesOf_nonneg {α : Type} [LinearOrderedField α] (ps : List α) :
    ∀ x ∈ lossesOf ps, 0 ≤ x := by
  intro x hx
  rcases List.mem_cons.mp hx with rfl | hx
  · exact le_refl 0
  · obtain ⟨p, hp, rfl⟩ := List.mem_map.mp hx
    exact le_max_right _ _

theorem windowMean_nonneg {α : Type} [LinearOrderedField α] (l : List α)
    (h : ∀ x ∈ l, 0 ≤ x) (s p : ℕ) : 0 ≤ windowMean l s p := by
  unfold windowMean
  apply div_nonneg
  · exact List.sum_nonneg fun x hx =>
      h x (List.mem_of_mem_drop (List.mem_of_mem_take hx))
  · exact Nat.cast_nonneg p

theorem rsiPoint_bounds {α : Type} [LinearOrderedField α] (g l : α)
    (hg : 0 ≤ g) (hl : 0 ≤ l) : 0 ≤ rsiPoint g l ∧ rsiPoint g l ≤ 100 := by
  unfold rsiPoint
  by_cases h : l = 0
  · by_cases h2 : g = 0
    · simp only [h, h2, if_pos rfl]
      norm_num
    · simp only [h, if_pos rfl, if_neg h2]
      norm_num
  · rw [if_neg h]
    have hrs : 0 ≤ g / l := div_nonneg hg hl
    constructor
    · have h2 : 100 / (1 + g / l) ≤ 100 :=
        div_le_self (by norm_num) (by linarith)
      linarith
    · have h3 : 0 < 100 / (1 + g / l) := by positivity
      linarith

theorem lossesOf_length {α : Type} [LinearOrderedField α] (ps : List α)
    (h : ps ≠ []) : (lossesOf ps).length = ps.length := by
  have h1 : 1 ≤ ps.length := List.length_pos.mpr h
  simp only [lossesOf, List.length_cons, List.length_map, List.length_zip,
    List.length_tail]
  omega

/-- Every element past the artificial leading 0 of the gain series is
`max(ps[i+1] - ps[i], 0)` for adjacent indices. -/
theorem mem_gains_rest {α : Type} [LinearOrderedField α] {ps : List α} {x : α}
    (hx : x ∈ (List.zip ps.tail ps).map (fun p => max (p.1 - p.2) 0)) :
    ∃ i, i + 1 < ps.length ∧ x = max (ps.getD (i + 1) 0 - ps.getD i 0) 0 := by
  obtain ⟨p, hp, rfl⟩ := List.mem_map.mp hx
  obtain ⟨i, hi, hpi⟩ := List.mem_iff_getElem.mp hp
  have hit : i < ps.tail.length := by
    rw [List.length_zip] at hi
    omega
  have h1 : i + 1 < ps.length := by
    rw [List.length_tail] at hit
    omega
  have hip : i < ps.length := by omega
  refine ⟨i, h1, ?_⟩
  rw [← hpi, List.getElem_zip, List.getElem_tail,
    List.getD_eq_getElem ps 0 h1, List.getD_eq_getElem ps 0 hip]

theorem mem_losses_rest {α : Type} [LinearOrderedField α] {ps : List α} {x : α}
    (hx : x ∈ (List.zip ps.tail ps).map (fun p => max (p.2 - p.1) 0)) :
    ∃ i, i + 1 < ps.length ∧ x = max (ps.getD i 0 - ps.getD (i + 1) 0) 0 := by
  obtain ⟨p, hp, rfl⟩ := List.mem_map.mp hx
  obtain ⟨i, hi, hpi⟩ := List.mem_iff_getElem.mp hp
  have hit : i < ps.tail.length := by
    rw [List.length_zip] at hi
    omega
  have h1 : i + 1 < ps.length := by
    rw [List.length_tail] at hit
    omega
  have hip : i < ps.length := by omega
  refine ⟨i, h1, ?_⟩
  rw [← hpi, List.getElem_zip, List.getElem_tail,
    List.getD_eq_getElem ps 0 h1, List.getD_eq_getElem ps 0 hip]

theorem pairwise_gt_adjacent {ps : List ℚ} (h : List.Pairwise (· > ·) ps)
    (i : ℕ) (hi : i + 1 < ps.length) : ps.getD (i + 1) 0 < ps.getD i 0 := by
  have hip : i < ps.length := by omega
  have := List.pairwise_iff_get.mp h ⟨i, hip⟩ ⟨i + 1, hi⟩ (by simp)
  rw [List.getD_eq_getElem ps 0 hi, List.getD_eq_getElem ps 0 hip]
  simpa [List.get_eq_getElem] using this

theorem pairwise_lt_adjacent {ps : List ℚ} (h : List.Pairwise (· < ·) ps)
    (i : ℕ) (hi : i + 1 < ps.length) : ps.getD i 0 < ps.getD (i + 1) 0 := by
  have hip : i < ps.length := by omega
  have := List.pairwise_iff_get.mp h ⟨i, hip⟩ ⟨i + 1, hi⟩ (by simp)
  rw [List.getD_eq_getElem ps 0 hi, List.getD_eq_getElem ps 0 hip]
  simpa [List.get_eq_getElem] using this

/-- The last RSI entry of a long-enough series is the computed one, over
the final window. -/
theorem calcRSI_getLast (ps : List ℚ) (period : ℕ) (hlen : period + 1 ≤ ps.length) :
    (calcRSI ps period).getLast? =
      some (rsiPoint (windowMean (gainsOf ps) (ps.length - period) period)
        (windowMean (lossesOf ps) (ps.length - period) period)) := by
  unfold calcRSI
  rw [if_neg (not_lt.mpr hlen)]
  obtain ⟨m, hm⟩ : ∃ m, ps.length = m + 1 := ⟨ps.length - 1, by omega⟩
  rw [hm] at hlen ⊢
  rw [List.range_succ, List.map_append, List.map_cons, List.map_nil,
    List.getLast?_concat]
  have hnm : ¬(m + 1 < period) := by omega
  simp [hnm]

/-- The final-window sum of gains (resp. losses) characterised for the
monotone and flat cases, wrapped into the one C4 theorem below. -/
theorem windowMean_eq_zero {l : List ℚ} {s p : ℕ}
    (h : ∀ x ∈ (l.drop s).take p, x = 0) : windowMean l s p = 0 := by
  unfold windowMean
  rw [List.sum_eq_zero h, zero_div]

theorem windowMean_pos {l : List ℚ} {s p : ℕ} (hp : 0 < p) (hlen : s + p ≤ l.length)
    (h : ∀ x ∈ (l.drop s).take p, 0 < x) : 0 < windowMean l s p := by
  unfold windowMean
  apply div_pos
  · apply List.sum_pos _ h
    have hl : ((l.drop s).take p).length = p := by
      rw [List.length_take, List.length_drop]
      omega
    intro hnil
    rw [hnil] at hl
    simp at hl
    omega
  · exact_mod_cast hp

/-- C4: over any price series of length at least `period + 1` (and
`period > 0`): every RSI value lies in [0, 100]; a strictly decreasing
series has final RSI exactly 0; a strictly increasing series has final
RSI exactly 100; and a flat series — the zero-loss-denominator case —
yields the substituted neutral value 50 everywhere. -/
theorem rsi_bounds_and_limits :
    (∀ (ps : List ℚ) (period : ℕ), 0 < period →
        ∀ x ∈ calcRSI ps period, 0 ≤ x ∧ x ≤ 100) ∧
    (∀ (ps : List ℚ) (period : ℕ), 0 < period → period + 1 ≤ ps.length →
        List.Pairwise (· > ·) ps → (calcRSI ps period).getLast? = some 0) ∧
    (∀ (ps : List ℚ) (period : ℕ), 0 < period → period + 1 ≤ ps.length →
        List.Pairwise (· < ·) ps → (calcRSI ps period).getLast? = some 100) ∧
    (∀ (ps : List ℚ) (period : ℕ) (c : ℚ), 0 < period → (∀ x ∈ ps, x = c) →
        ∀ x ∈ calcRSI ps period, x = 50) := by
  have hdropmem : ∀ (ps : List ℚ) (x : ℚ) (k p : ℕ),
      x ∈ ((gainsOf ps).drop (k + 1)).take p →
      x ∈ (List.zip ps.tail ps).map (fun q => max (q.1 - q.2) 0) := by
    intro ps x k p hx
    have : x ∈ (gainsOf ps).drop (k + 1) := List.mem_of_mem_take hx
    rw [gainsOf, List.drop_succ_cons] at this
    exact List.mem_of_mem_drop this
  have hdropmemL : ∀ (ps : List ℚ) (x : ℚ) (k p : ℕ),
      x ∈ ((lossesOf ps).drop (k + 1)).take p →
      x ∈ (List.zip ps.tail ps).map (fun q => max (q.2 - q.1) 0) := by
    intro ps x k p hx
    have : x ∈ (lossesOf ps).drop (k + 1) := List.mem_of_mem_take hx
    rw [lossesOf, List.drop_succ_cons] at this
    exact List.mem_of_mem_drop this
  refine ⟨?_, ?_, ?_, ?_⟩
  · -- bounds
    intro ps period hper x hx
    unfold calcRSI at hx
    by_cases hlen : ps.length < period + 1
    · rw [if_pos hlen] at hx
      cases hx
    · rw [if_neg hlen] at hx
      obtain ⟨i, hi, rfl⟩ := List.mem_map.mp hx
      by_cases hbr : i + 1 < period
      · simp only [if_pos hbr]
        norm_num
      · simp only [if_neg hbr]
        exact rsiPoint_bounds _ _
          (windowMean_nonneg _ (gainsOf_nonneg ps) _ _)
          (windowMean_nonneg _ (lossesOf_nonneg ps) _ _)
  · -- strictly decreasing → last RSI = 0
    intro ps period hper hlen hdec
    rw [calcRSI_getLast ps period hlen]
    obtain ⟨k, hk⟩ : ∃ k, ps.length - period = k + 1 := ⟨ps.length - period - 1, by omega⟩
    have hg : windowMean (gainsOf ps) (ps.length - period) period = 0 := by
      apply windowMean_eq_zero
      intro x hx
      rw [hk] at hx
      obtain ⟨i, hi, rfl⟩ := mem_gains_rest (hdropmem ps x k period hx)
      have := pairwise_gt_adjacent hdec i hi
      exact max_eq_right (by linarith)
    have hl : 0 < windowMean (lossesOf ps) (ps.length - period) period := by
      apply windowMean_pos hper
      · rw [lossesOf_length ps (by intro h0; rw [h0] at hlen; simp at hlen)]
        omega
      · intro x hx
        rw [hk] at hx
        obtain ⟨i, hi, rfl⟩ := mem_losses_rest (hdropmemL ps x k period hx)
        have := pairwise_gt_adjacent hdec i hi
        rw [max_eq_left (by linarith)]
        linarith
    rw [hg]
    unfold rsiPoint
    rw [if_neg (ne_of_gt hl)]
    norm_num
  · -- strictly increasing → last RSI = 100
    intro ps period hper hlen hinc
    rw [calcRSI_getLast ps period hlen]
    obtain ⟨k, hk⟩ : ∃ k, ps.length - period = k + 1 := ⟨ps.length - period - 1, by omega⟩
    have hl : windowMean (lossesOf ps) (ps.length - period) period = 0 := by
      apply windowMean_eq_zero
      intro x hx
      rw [hk] at hx
      obtain ⟨i, hi, rfl⟩ := mem_losses_rest (hdropmemL ps x k period hx)
      have := pairwise_lt_adjacent hinc i hi
      exact max_eq_right (by linarith)
    have hg : 0 < windowMean (gainsOf ps) (ps.length - period) period := by
      apply windowMean_pos hper
      · have hne : ps ≠ [] := by intro h0; rw [h0] at hlen; simp at hlen
        have : (gainsOf ps).length = ps.length := by
          have h1 : 1 ≤ ps.length := List.length_pos.mpr hne
          simp only [gainsOf, List.length_cons, List.length_map, List.length_zip,
            List.length_tail]
          omega
        rw [this]
        omega
      · intro x hx
        rw [hk] at hx
        obtain ⟨i, hi, rfl⟩ := mem_gains_rest (hdropmem ps x k period hx)
        have := pairwise_lt_adjacent hinc i hi
        rw [max_eq_left (by linarith)]
        linarith
    rw [hl]
    unfold rsiPoint
    rw [if_pos rfl, if_neg (ne_of_gt hg)]
  · -- flat input → every value is the substituted 50
    intro ps period c hper hflat x hx
    have hg0 : ∀ y ∈ gainsOf ps, y = (0 : ℚ) := by
      intro y hy
      rcases List.mem_cons.mp hy with rfl | hy
      · rfl
      · obtain ⟨p, hp, rfl⟩ := List.mem_map.mp hy
        have hz := List.of_mem_zip hp
        have h1 : p.1 = c := hflat _ (List.mem_of_mem_tail hz.1)
        have h2 : p.2 = c := hflat _ hz.2
        simp [h1, h2]
    have hl0 : ∀ y ∈ lossesOf ps, y = (0 : ℚ) := by
      intro y hy
      rcases List.mem_cons.mp hy with rfl | hy
      · rfl
      · obtain ⟨p, hp, rfl⟩ := List.mem_map.mp hy
        have hz := List.of_mem_zip hp
        have h1 : p.1 = c := hflat _ (List.mem_of_mem_tail hz.1)
        have h2 : p.2 = c := hflat _ hz.2
        simp [h1, h2]
    unfold calcRSI at hx
    by_cases hlen : ps.length < period + 1
    · rw [if_pos hlen] at hx
      cases hx
    · rw [if_neg hlen] at hx
      obtain ⟨i, hi, rfl⟩ := List.mem_map.mp hx
      by_cases hbr : i + 1 < period
      · simp [hbr]
      · simp only [if_neg hbr]
        have hg : windowMean (gainsOf ps) (i + 1 - period) period = 0 :=
          windowMean_eq_zero fun y hy =>
            hg0 y (List.mem_of_mem_drop (List.mem_of_mem_take hy))
        have hl : windowMean (lossesOf ps) (i + 1 - period) period = 0 :=
          windowMean_eq_zero fun y hy =>
            hl0 y (List.mem_of_mem_drop (List.mem_of_mem_take hy))
        rw [hg, hl]
        unfold rsiPoint
        rw [if_pos rfl, if_pos rfl]

/-- Witness: RSI(14) of the 15-sample strictly falling series ends at 0,
of the rising one at 100; RSI(4) of a flat 5-sample series is 50
everywhere; and the falling series has all RSI values inside [0, 100]. -/
theorem rsi_bounds_and_limits_witness :
    (calcRSI ([15, 14, 13, 12, 11, 10, 9, 8, 7, 6, 5, 4, 3, 2, 1] : List ℚ) 14).getLast? =
        some (0 : ℚ) ∧
    (calcRSI ([1, 2, 3, 4, 5, 6, 7, 8, 9, 10, 11, 12, 13, 14, 15] : List ℚ) 14).getLast? =
        some (100 : ℚ) ∧
    (∀ x ∈ calcRSI ([5, 5, 5, 5, 5] : List ℚ) 4, x = 50) ∧
    (∀ x ∈ calcRSI ([15, 14, 13, 12, 11, 10, 9, 8, 7, 6, 5, 4, 3, 2, 1] : List ℚ) 14,
      0 ≤ x ∧ x ≤ 100) := by
  refine ⟨?_, ?_, ?_, ?_⟩
  · exact rsi_bounds_and_limits.2.1 _ 14 (by norm_num) (by norm_num)
      (by norm_num [List.pairwise_cons])
  · exact rsi_bounds_and_limits.2.2.1 _ 14 (by norm_num) (by norm_num)
      (by norm_num [List.pairwise_cons])
  · exact rsi_bounds_and_limits.2.2.2 _ 4 5 (by norm_num)
      (by intro x hx; fin_cases hx <;> rfl)
  · exact rsi_bounds_and_limits.1 _ 14 (by norm_num)

end Intraday
